import Mathlib

/-!
Verification development for the AndroidSdkHelper repository.

The development shallowly embeds the two pieces of the source that the
claims concern:

* `AndroidAdb.read_logcat_while_lines` from `android_adb.py` (the logcat
  accumulation loop, together with `stop_logcat` and the
  `set_logcat_exit_lines` configuration), and
* the SDK path resolver from `android_sdk.py` (`_path_checker`,
  `AndroidSdk.set_sdk`, `AndroidSdk.set_adb` and friends).

Lines read from the logcat pipe are modelled as byte lists; decoding is
the strict UTF-8 decode that Python's `bytes.decode('utf-8')` performs
(no `errors=` argument is passed at `android_adb.py:488`).  Stop/start
patterns are modelled as literal strings, matching the literal fragment
of the regular-expression patterns the source compiles with
`re.compile('|'.join(...))`: for literal patterns, `re.search` of the
alternation succeeds exactly when some alternative occurs as a substring
of the line, and the empty alternation (from an empty pattern list)
matches every line.  Wall-clock time is modelled by a function giving
the value of `time.time() - start_time` observed at each loop iteration.
-/

namespace AndroidSdkHelper

/-- A decoded text line, as a list of characters. -/
abbrev Line := List Char

/-- A raw line read from the logcat pipe, as a list of byte values. -/
abbrev ByteLine := List Nat

/-- A literal stop/start pattern. -/
abbrev Pat := List Char

/-- Whitespace characters stripped by Python's `str.strip()` (ASCII range). -/
def isPySpace (c : Char) : Bool :=
  c == ' ' || c == '\t' || c == '\n' || c == '\r' || c == '\x0b' || c == '\x0c'

/-- Python's `str.strip()`: drop leading and trailing whitespace. -/
def pyStrip (l : List Char) : List Char :=
  ((l.dropWhile isPySpace).reverse.dropWhile isPySpace).reverse

/-- Python's membership test `log_str in ('', '\n', '\r')` from
`android_adb.py:493`, applied to the already-stripped line. -/
def pyBlank (l : List Char) : Bool :=
  l == ([] : List Char) || l == ['\n'] || l == ['\r']

/-- Does `p` occur at the start of `s`? -/
def listStarts (p s : List Char) : Bool :=
  match p, s with
  | [], _ => true
  | _ :: _, [] => false
  | a :: p, b :: s => a == b && listStarts p s

/-- Does `p` occur as a contiguous segment of `s`?  This is `re.search`
of the literal pattern `p` in the line `s`. -/
def containsSeg (p s : List Char) : Bool :=
  listStarts p s ||
    (match s with
     | [] => false
     | _ :: t => containsSeg p t)

/-- Matching of the compiled alternation `re.compile('|'.join(set(pats)))`
against a line, for literal patterns: the empty join (empty pattern list)
compiles to the empty regex, which matches every line; otherwise the
alternation matches iff some alternative occurs in the line.  Python's
`set(...)` deduplication does not change this. -/
def patMatches (pats : List Pat) (s : List Char) : Bool :=
  match pats with
  | [] => true
  | _ :: _ => pats.any fun p => containsSeg p s

/-- Is `b` a UTF-8 continuation byte (`0x80..0xBF`)? -/
def utf8Cont (b : Nat) : Bool :=
  0x80 ≤ b && b < 0xC0

/-- Strict UTF-8 decoding, as performed by Python's `bytes.decode('utf-8')`
at `android_adb.py:488`: rejects invalid lead bytes, truncated sequences,
bad continuation bytes, overlong encodings, surrogates and code points
above `0x10FFFF`; returns `none` where Python raises `UnicodeDecodeError`. -/
def utf8Decode : List Nat → Option (List Char)
  | [] => some []
  | b :: rest =>
    if b < 0x80 then
      match utf8Decode rest with
      | some cs => some (Char.ofNat b :: cs)
      | none => none
    else if 0xC2 ≤ b && b ≤ 0xDF then
      match rest with
      | c1 :: rest1 =>
        if utf8Cont c1 then
          match utf8Decode rest1 with
          | some cs => some (Char.ofNat ((b - 0xC0) * 0x40 + (c1 - 0x80)) :: cs)
          | none => none
        else none
      | [] => none
    else if 0xE0 ≤ b && b ≤ 0xEF then
      match rest with
      | c1 :: c2 :: rest2 =>
        if utf8Cont c1 && utf8Cont c2 then
          if 0x800 ≤ (b - 0xE0) * 0x1000 + (c1 - 0x80) * 0x40 + (c2 - 0x80) &&
              !(0xD800 ≤ (b - 0xE0) * 0x1000 + (c1 - 0x80) * 0x40 + (c2 - 0x80) &&
                (b - 0xE0) * 0x1000 + (c1 - 0x80) * 0x40 + (c2 - 0x80) ≤ 0xDFFF) then
            match utf8Decode rest2 with
            | some cs =>
              some (Char.ofNat ((b - 0xE0) * 0x1000 + (c1 - 0x80) * 0x40 + (c2 - 0x80)) :: cs)
            | none => none
          else none
        else none
      | _ => none
    else if 0xF0 ≤ b && b ≤ 0xF4 then
      match rest with
      | c1 :: c2 :: c3 :: rest3 =>
        if utf8Cont c1 && utf8Cont c2 && utf8Cont c3 then
          if 0x10000 ≤ (b - 0xF0) * 0x40000 + (c1 - 0x80) * 0x1000 +
                (c2 - 0x80) * 0x40 + (c3 - 0x80) &&
              (b - 0xF0) * 0x40000 + (c1 - 0x80) * 0x1000 +
                (c2 - 0x80) * 0x40 + (c3 - 0x80) ≤ 0x10FFFF then
            match utf8Decode rest3 with
            | some cs =>
              some (Char.ofNat ((b - 0xF0) * 0x40000 + (c1 - 0x80) * 0x1000 +
                (c2 - 0x80) * 0x40 + (c3 - 0x80)) :: cs)
            | none => none
          else none
        else none
      | _ => none
    else none

/-- Byte encoding of an ASCII string, for building concrete test streams. -/
def asciiBytes (s : String) : List Nat :=
  s.data.map Char.toNat

/-- The parts of an `AndroidAdb` object's state that the logcat methods
touch: whether `self.__logcat` holds a process handle, whether that
process has been terminated, and the `self.__exit_lines` configuration. -/
structure AdbState where
  logcatHandle : Bool
  procTerminated : Bool
  exitLines : Option (List Pat)
deriving DecidableEq

/-- `AndroidAdb.stop_logcat` (`android_adb.py:347`): if `self.__logcat`
is not `None` it is terminated (the inner guard `if self.__logcat.poll
is not None` tests the bound method object `poll`, which is never
`None`, so it always passes) and the handle is released. -/
def stop_logcat (s : AdbState) : AdbState :=
  if s.logcatHandle then
    { s with procTerminated := true, logcatHandle := false }
  else
    { s with logcatHandle := false }

/-- `AndroidAdb.set_logcat_exit_lines` (`android_adb.py:429`): store the
configured extra exit lines (the `isinstance` check always passes for a
list argument). -/
def set_logcat_exit_lines (s : AdbState) (lines : List Pat) : AdbState :=
  { s with exitLines := some lines }

/-- `AndroidAdb.clear_logcat_exit_lines` (`android_adb.py:441`). -/
def clear_logcat_exit_lines (s : AdbState) : AdbState :=
  { s with exitLines := none }

/-- How a call to `read_logcat_while_lines` ends. -/
inductive Outcome where
  /-- The while loop found a stop match and the accumulated list was
  returned. -/
  | ok (result : List Line)
  /-- `raise TimeoutError('Timeout for reading logcat')` at
  `android_adb.py:487`. -/
  | timeoutError
  /-- `UnicodeDecodeError` propagating out of `.decode(decode)` at
  `android_adb.py:488`. -/
  | decodeError
  /-- `TypeError` from `re.search(None, log_str)` when `start_lines` is
  an empty list (then `pattern_start` is `None` but `can_start` starts
  `False`). -/
  | typeError
  /-- `raise LogcatNotDefinedError` at `android_adb.py:464`. -/
  | notDefined
  /-- The loop is still running after the given number of iterations
  (the Python loop has no exit of its own on a closed stream). -/
  | running (acc : List Line) (canStart : Bool)
deriving DecidableEq

/-- `readline()` on the logcat pipe: the `i`-th line of the stream, or
`b''` once the stream is exhausted (a closed pipe keeps returning empty
bytes). -/
def readAt (stream : List ByteLine) (i : Nat) : ByteLine :=
  stream.getD i []

/-- Did the deadline check `time.time() - start_time > timeout` at
`android_adb.py:484` fire at iteration `i`?  `elapsed i` is the value of
`time.time() - start_time` observed there. -/
def timeoutHit (elapsed : Nat → Nat) (timeout : Option Nat) (i : Nat) : Bool :=
  match timeout with
  | some t => elapsed i > t
  | none => false

/-- The `while not found` loop of `AndroidAdb.read_logcat_while_lines`
(`android_adb.py:483-498`), stepped with explicit fuel.  Each iteration:
check the deadline (raising `TimeoutError` after `stop_logcat`), read
and strictly decode a line, strip it, try the start pattern when
accumulation has not started (`re.search(None, _)` raising `TypeError`
when the compiled start pattern is `None`), append the line when
accumulation is on and the stripped line is not in `('', '\n', '\r')`,
and finally test the stop pattern, exiting through `stop_logcat` on a
match. -/
def logcatLoop (elapsed : Nat → Nat) (timeout : Option Nat) (stream : List ByteLine)
    (patStart : Option (List Pat)) (patEnd : List Pat) (s : AdbState) :
    Nat → Nat → Bool → List Line → Outcome × AdbState
  | 0, _, canStart, acc => (.running acc canStart, s)
  | fuel + 1, i, canStart, acc =>
    if timeoutHit elapsed timeout i then
      (.timeoutError, stop_logcat s)
    else
      match utf8Decode (readAt stream i) with
      | none => (.decodeError, s)
      | some cs =>
        if canStart then
          let acc' := if pyBlank (pyStrip cs) then acc else acc ++ [pyStrip cs]
          if patMatches patEnd (pyStrip cs) then
            (.ok acc', stop_logcat s)
          else
            logcatLoop elapsed timeout stream patStart patEnd s fuel (i + 1) true acc'
        else
          match patStart with
          | none => (.typeError, s)
          | some ps =>
            if patMatches ps (pyStrip cs) then
              let acc' := if pyBlank (pyStrip cs) then acc else acc ++ [pyStrip cs]
              if patMatches patEnd (pyStrip cs) then
                (.ok acc', stop_logcat s)
              else
                logcatLoop elapsed timeout stream patStart patEnd s fuel (i + 1) true acc'
            else
              if patMatches patEnd (pyStrip cs) then
                (.ok acc, stop_logcat s)
              else
                logcatLoop elapsed timeout stream patStart patEnd s fuel (i + 1) false acc

/-- The observable result of a call to `read_logcat_while_lines`: how it
ended, the final object state, and the final value of the caller's
`end_lines` list (the source mutates it in place with `+=`). -/
structure CallResult where
  outcome : Outcome
  state : AdbState
  endLinesAfter : List Pat
deriving DecidableEq

/-- `AndroidAdb.read_logcat_while_lines` (`android_adb.py:447-498`).
Raises `LogcatNotDefinedError` when no logcat handle is set (before the
`end_lines` mutation).  Otherwise: `pattern_start` is compiled from
`start_lines` only when that list is truthy (non-`None` and non-empty);
`end_lines` is extended in place with the configured exit lines; the
stop pattern is compiled from `set(end_lines)`; `can_start` starts
`False` exactly when `start_lines` is not `None`; then the while loop
runs. -/
def read_logcat_while_lines (s : AdbState) (end_lines : List Pat)
    (start_lines : Option (List Pat)) (timeout : Option Nat)
    (stream : List ByteLine) (elapsed : Nat → Nat) (fuel : Nat) : CallResult :=
  if s.logcatHandle = false then
    { outcome := .notDefined, state := s, endLinesAfter := end_lines }
  else
    let patStart : Option (List Pat) :=
      match start_lines with
      | some (p :: ps) => some (p :: ps)
      | _ => none
    let endLinesAfter :=
      match s.exitLines with
      | some ex => end_lines ++ ex
      | none => end_lines
    let canStart0 : Bool := start_lines.isNone
    let r := logcatLoop elapsed timeout stream patStart endLinesAfter s fuel 0 canStart0 []
    { outcome := r.1, state := r.2, endLinesAfter := endLinesAfter }

/-- Kinds of filesystem objects the resolver distinguishes. -/
inductive FsObj where
  | dir
  | file
deriving DecidableEq

/-- The environment seen by `android_sdk.py`: variable expansion
(`os.path.expandvars`), the filesystem (`os.path.exists` /
`os.path.isdir` / `os.path.isfile`), a sorted directory listing
(`sorted(os.listdir(p))`), and whether `os.name == 'nt'`. -/
structure FS where
  expandvars : String → String
  lookup : String → Option FsObj
  listdir : String → List String
  windows : Bool

/-- The exceptions the resolver can raise. -/
inductive PathErr where
  /-- `IsADirectoryError` from `_path_checker` (path exists, is not a dir). -/
  | isADirectoryError
  /-- `FileNotFoundError` from `_path_checker` (path exists, is not a file). -/
  | fileNotFoundError
  /-- `AttributeError` (unknown `obj_type` or unknown `auto_set` name). -/
  | attributeError
  /-- `OSError` (`Path ... not exist`, or `Build tools not installed`). -/
  | osError
  /-- `ValueError` (`Build tools has different versions`). -/
  | valueError
  /-- `TypeError` from `os.path.join` applied to `None` or to a list. -/
  | typeError
deriving DecidableEq

/-- POSIX `os.path.join` for two components. -/
def pathJoin (a b : String) : String :=
  if b.startsWith "/" then b
  else if a = "" || a.endsWith "/" then a ++ b
  else a ++ "/" ++ b

/-- The tool binary name for the host OS (`self.__util_name`): `.exe` is
appended on Windows (`os.name == 'nt'`). -/
def utilName (fs : FS) (n : String) : String :=
  if fs.windows then n ++ ".exe" else n

/-- `_path_checker` (`android_sdk.py:6-29`): expand variables, then
check existence and the requested object type, raising on mismatch. -/
def path_checker (fs : FS) (path obj_type : String) : Except PathErr Bool :=
  match fs.lookup (fs.expandvars path) with
  | some o =>
    if obj_type = "dir" then
      if o = .dir then .ok true else .error .isADirectoryError
    else if obj_type = "file" then
      if o = .file then .ok true else .error .fileNotFoundError
    else
      .error .attributeError
  | none => .error .osError

/-- The fields of an `AndroidSdk` object. -/
structure SdkState where
  sdk : Option String
  adb : Option String
  aapt : Option String
  zipalign : Option String
  emulator : Option String
  selectLast : Bool
deriving DecidableEq

/-- `AndroidSdk.__get_build_tools_dir` (`android_sdk.py:74-92`).  With
`self.__sdk` still `None`, `os.path.join(None, ...)` raises `TypeError`.
With exactly one installed version the source returns
`os.path.join(expected_build_tools, internal_dirs)` where
`internal_dirs` is a *list*, which raises `TypeError` as well. -/
def get_build_tools_dir (fs : FS) (st : SdkState) : Except PathErr String :=
  match st.sdk with
  | none => .error .typeError
  | some sdkp =>
    let expected := pathJoin sdkp "build-tools"
    match path_checker fs expected "dir" with
    | .error e => .error e
    | .ok _ =>
      match fs.listdir (fs.expandvars expected) with
      | [] => .error .osError
      | [_] => .error .typeError
      | ds =>
        if st.selectLast then .ok (pathJoin expected (ds.getLastD ""))
        else .error .valueError

/-- `AndroidSdk.set_adb` (`android_sdk.py:102-115`): with a truthy
`path` argument check it is a file and store it; otherwise derive
`os.path.join(self.__sdk, 'platform-tools', adb)` (raising `TypeError`
when `self.__sdk` is `None`) and check and store that. -/
def set_adb (fs : FS) (st : SdkState) (path : Option String) : Except PathErr SdkState :=
  match path with
  | some p =>
    if p ≠ "" then
      match path_checker fs p "file" with
      | .error e => .error e
      | .ok _ => .ok { st with adb := some p }
    else
      match st.sdk with
      | none => .error .typeError
      | some sdkp =>
        let expected := pathJoin (pathJoin sdkp "platform-tools") (utilName fs "adb")
        match path_checker fs expected "file" with
        | .error e => .error e
        | .ok _ => .ok { st with adb := some expected }
  | none =>
    match st.sdk with
    | none => .error .typeError
    | some sdkp =>
      let expected := pathJoin (pathJoin sdkp "platform-tools") (utilName fs "adb")
      match path_checker fs expected "file" with
      | .error e => .error e
      | .ok _ => .ok { st with adb := some expected }

/-- `AndroidSdk.set_aapt` (`android_sdk.py:125-139`). -/
def set_aapt (fs : FS) (st : SdkState) (path : Option String) : Except PathErr SdkState :=
  match path with
  | some p =>
    if p ≠ "" then
      match path_checker fs p "file" with
      | .error e => .error e
      | .ok _ => .ok { st with aapt := some p }
    else
      match get_build_tools_dir fs st with
      | .error e => .error e
      | .ok bt =>
        match path_checker fs (pathJoin bt (utilName fs "aapt")) "file" with
        | .error e => .error e
        | .ok _ => .ok { st with aapt := some (pathJoin bt (utilName fs "aapt")) }
  | none =>
    match get_build_tools_dir fs st with
    | .error e => .error e
    | .ok bt =>
      match path_checker fs (pathJoin bt (utilName fs "aapt")) "file" with
      | .error e => .error e
      | .ok _ => .ok { st with aapt := some (pathJoin bt (utilName fs "aapt")) }

/-- `AndroidSdk.set_zipalign` (`android_sdk.py:149-162`). -/
def set_zipalign (fs : FS) (st : SdkState) (path : Option String) : Except PathErr SdkState :=
  match path with
  | some p =>
    if p ≠ "" then
      match path_checker fs p "file" with
      | .error e => .error e
      | .ok _ => .ok { st with zipalign := some p }
    else
      match get_build_tools_dir fs st with
      | .error e => .error e
      | .ok bt =>
        match path_checker fs (pathJoin bt (utilName fs "zipalign")) "file" with
        | .error e => .error e
        | .ok _ => .ok { st with zipalign := some (pathJoin bt (utilName fs "zipalign")) }
  | none =>
    match get_build_tools_dir fs st with
    | .error e => .error e
    | .ok bt =>
      match path_checker fs (pathJoin bt (utilName fs "zipalign")) "file" with
      | .error e => .error e
      | .ok _ => .ok { st with zipalign := some (pathJoin bt (utilName fs "zipalign")) }

/-- `AndroidSdk.set_emulator` (`android_sdk.py:172-184`). -/
def set_emulator (fs : FS) (st : SdkState) (path : Option String) : Except PathErr SdkState :=
  match path with
  | some p =>
    if p ≠ "" then
      match path_checker fs p "file" with
      | .error e => .error e
      | .ok _ => .ok { st with emulator := some p }
    else
      match st.sdk with
      | none => .error .typeError
      | some sdkp =>
        let expected := pathJoin (pathJoin sdkp "tools") (utilName fs "emulator")
        match path_checker fs expected "file" with
        | .error e => .error e
        | .ok _ => .ok { st with emulator := some expected }
  | none =>
    match st.sdk with
    | none => .error .typeError
    | some sdkp =>
      let expected := pathJoin (pathJoin sdkp "tools") (utilName fs "emulator")
      match path_checker fs expected "file" with
      | .error e => .error e
      | .ok _ => .ok { st with emulator := some expected }

/-- `AndroidSdk.__auto_set` (`android_sdk.py:194-210`): dispatch each
requested utility name to its setter, raising `AttributeError` on an
unknown name; exceptions propagate. -/
def sdk_auto_set (fs : FS) (st : SdkState) : List String → Except PathErr SdkState
  | [] => .ok st
  | n :: rest =>
    let step : Except PathErr SdkState :=
      if n = "adb" then set_adb fs st none
      else if n = "aapt" then set_aapt fs st none
      else if n = "zipalign" then set_zipalign fs st none
      else if n = "emulator" then set_emulator fs st none
      else .error .attributeError
    match step with
    | .error e => .error e
    | .ok st' => sdk_auto_set fs st' rest

/-- `AndroidSdk.set_sdk` (`android_sdk.py:62-72`): check the root is an
existing directory (raising otherwise), store it, and run the auto-set
list when it is truthy (non-empty). -/
def set_sdk (fs : FS) (st : SdkState) (path : String) (autoSet : List String) :
    Except PathErr SdkState :=
  match path_checker fs path "dir" with
  | .error e => .error e
  | .ok true =>
    let st' := { st with sdk := some path }
    if autoSet ≠ [] then sdk_auto_set fs st' autoSet else .ok st'
  | .ok false => .ok st

/-- `AndroidSdk.get_sdk` (`android_sdk.py:94`). -/
def get_sdk (st : SdkState) : Option String :=
  st.sdk

/-- `AndroidSdk.get_adb` (`android_sdk.py:117`). -/
def get_adb (st : SdkState) : Option String :=
  st.adb

/-- The decoded, stripped `j`-th line of a stream, when it decodes:
`self.__logcat.stdout.readline().decode(decode).strip()`. -/
def dline (stream : List ByteLine) (j : Nat) : Option (List Char) :=
  (utf8Decode (readAt stream j)).map pyStrip

/-- An `AndroidAdb` state with a live logcat handle and no configured
exit lines, used for concrete test runs. -/
def liveState : AdbState :=
  { logcatHandle := true, procTerminated := false, exitLines := none }

/-- A concrete filesystem for exercising the SDK resolver: `/sdk` is a
directory and `/sdk/platform-tools/adb` is a file. -/
def fsW : FS :=
  { expandvars := fun p => p
    lookup := fun p =>
      if p = "/sdk" then some .dir
      else if p = "/sdk/platform-tools/adb" then some .file
      else none
    listdir := fun _ => []
    windows := false }

/-- A fresh `AndroidSdk` object state. -/
def sdkState0 : SdkState :=
  { sdk := none, adb := none, aapt := none, zipalign := none, emulator := none,
    selectLast := true }

/-- `sdkState0` after a successful `set_sdk fsW sdkState0 "/sdk" []`. -/
def sdkStateS : SdkState :=
  { sdkState0 with sdk := some "/sdk" }

/-- The head of `dropWhile p l`, when present, does not satisfy `p`. -/
theorem dropWhile_head?_not {α : Type} (p : α → Bool) (l : List α) (a : α)
    (h : (l.dropWhile p).head? = some a) : p a = false := by
  induction l with
  | nil => simp [List.dropWhile] at h
  | cons b t ih =>
    rw [List.dropWhile_cons] at h
    by_cases hb : p b
    · rw [if_pos hb] at h
      exact ih h
    · rw [if_neg hb] at h
      simp only [List.head?_cons, Option.some.injEq] at h
      rw [← h]
      exact Bool.eq_false_iff.2 hb

/-- The last element of a reversed list is the head of the original. -/
theorem getLast?_reverse_eq_head? {α : Type} (l : List α) :
    l.reverse.getLast? = l.head? := by
  rw [← List.head?_reverse, List.reverse_reverse]

/-- The last element of a stripped line is never whitespace. -/
theorem pyStrip_getLast?_not_space (cs : List Char) (c : Char)
    (h : (pyStrip cs).getLast? = some c) : isPySpace c = false := by
  unfold pyStrip at h
  rw [getLast?_reverse_eq_head?] at h
  exact dropWhile_head?_not isPySpace _ c h

/-- A non-empty stripped line is not whitespace-only. -/
theorem pyStrip_all_space_false (cs : List Char) (h : pyStrip cs ≠ []) :
    (pyStrip cs).all isPySpace = false := by
  have hlast := List.getLast?_eq_getLast (pyStrip cs) h
  have hns := pyStrip_getLast?_not_space cs ((pyStrip cs).getLast h) hlast
  have hmem := List.getLast_mem h
  cases hall : (pyStrip cs).all isPySpace with
  | false => rfl
  | true =>
    have := List.all_eq_true.1 hall _ hmem
    rw [hns] at this
    exact absurd this (by simp)

/-- The blank-line test on a non-empty stripped line is `false`: a
stripped line can never equal `'\n'` or `'\r'`. -/
theorem pyBlank_pyStrip (cs : List Char) (h : pyStrip cs ≠ []) :
    pyBlank (pyStrip cs) = false := by
  have hn : pyStrip cs ≠ ['\n'] := by
    intro heq
    have := pyStrip_getLast?_not_space cs '\n' (by rw [heq]; rfl)
    simp [isPySpace] at this
  have hr : pyStrip cs ≠ ['\r'] := by
    intro heq
    have := pyStrip_getLast?_not_space cs '\r' (by rw [heq]; rfl)
    simp [isPySpace] at this
  simp only [pyBlank, Bool.or_eq_false_iff, beq_eq_false_iff_ne, ne_eq]
  exact ⟨⟨h, hn⟩, hr⟩

/-- A line appended by the loop (one with `pyBlank` false) is non-empty
and not whitespace-only. -/
theorem pyBlank_false_not_space (cs : List Char)
    (h : pyBlank (pyStrip cs) = false) : (pyStrip cs).all isPySpace = false := by
  have hne : pyStrip cs ≠ [] := by
    intro he
    rw [he] at h
    simp [pyBlank] at h
  exact pyStrip_all_space_false cs hne

/-- Characterization of the accumulation loop once accumulation is on
(`can_start` true) with no timeout configured: when the first stop-match
among the decoded, stripped lines is at offset `n`, the loop returns the
accumulator extended with the non-blank lines up to and including
offset `n`, and the handle is released through `stop_logcat`. -/
theorem logcatLoop_ok (elapsed : Nat → Nat) (stream : List ByteLine)
    (patStart : Option (List Pat)) (patEnd : List Pat) (s : AdbState) :
    ∀ (n : Nat) (f : Nat → Line) (i : Nat) (acc : List Line) (fuel : Nat),
      (∀ k, k ≤ n → dline stream (i + k) = some (f k)) →
      (∀ k, k < n → patMatches patEnd (f k) = false) →
      patMatches patEnd (f n) = true →
      n + 1 ≤ fuel →
      logcatLoop elapsed none stream patStart patEnd s fuel i true acc =
        (.ok (acc ++ ((List.range (n + 1)).map f).filter fun l => !pyBlank l),
          stop_logcat s) := by
  intro n
  induction n with
  | zero =>
    intro f i acc fuel hdec hno hyes hfuel
    obtain ⟨fuel, rfl⟩ : ∃ m, fuel = m + 1 := ⟨fuel - 1, by omega⟩
    have h0 := hdec 0 (Nat.le_refl 0)
    rw [Nat.add_zero] at h0
    unfold dline at h0
    obtain ⟨cs, hcs, hstrip⟩ := Option.map_eq_some'.1 h0
    cases hb : pyBlank (f 0) <;>
      simp [logcatLoop, timeoutHit, hcs, hstrip, hyes, hb, List.range_succ,
        List.range_zero, List.filter]
  | succ n ih =>
    intro f i acc fuel hdec hno hyes hfuel
    obtain ⟨fuel, rfl⟩ : ∃ m, fuel = m + 1 := ⟨fuel - 1, by omega⟩
    have h0 := hdec 0 (Nat.zero_le _)
    rw [Nat.add_zero] at h0
    unfold dline at h0
    obtain ⟨cs, hcs, hstrip⟩ := Option.map_eq_some'.1 h0
    have hno0 : patMatches patEnd (f 0) = false := hno 0 (Nat.succ_pos n)
    have ihh := ih (fun k => f (k + 1)) (i + 1)
      (if pyBlank (f 0) then acc else acc ++ [f 0]) fuel
      (fun k hk => by
        have hk1 := hdec (k + 1) (by omega)
        rw [show i + (k + 1) = i + 1 + k from by omega] at hk1
        exact hk1)
      (fun k hk => hno (k + 1) (by omega))
      hyes
      (by omega)
    have hstep : logcatLoop elapsed none stream patStart patEnd s (fuel + 1) i true acc =
        logcatLoop elapsed none stream patStart patEnd s fuel (i + 1) true
          (if pyBlank (f 0) then acc else acc ++ [f 0]) := by
      cases hb : pyBlank (f 0) <;>
        simp [logcatLoop, timeoutHit, hcs, hstrip, hno0, hb]
    rw [hstep, ihh]
    cases hb : pyBlank (f 0) <;>
      simp [hb, List.range_succ_eq_map, List.map_map, List.filter_cons,
        Function.comp, List.append_assoc, Nat.succ_eq_add_one] <;>
      rfl

/-- While `can_start` is false and neither the start nor the stop
pattern matches, the loop discards lines: running it is the same as
running it from `m` positions further on. -/
theorem logcatLoop_skip (elapsed : Nat → Nat) (stream : List ByteLine)
    (ps patEnd : List Pat) (s : AdbState) :
    ∀ (m : Nat) (f : Nat → Line) (i : Nat) (acc : List Line) (fuel : Nat),
      (∀ k, k < m → dline stream (i + k) = some (f k)) →
      (∀ k, k < m → patMatches ps (f k) = false) →
      (∀ k, k < m → patMatches patEnd (f k) = false) →
      m ≤ fuel →
      logcatLoop elapsed none stream (some ps) patEnd s fuel i false acc =
        logcatLoop elapsed none stream (some ps) patEnd s (fuel - m) (i + m) false acc := by
  intro m
  induction m with
  | zero =>
    intro f i acc fuel _ _ _ _
    simp
  | succ m ih =>
    intro f i acc fuel hdec hnost hnoend hfuel
    obtain ⟨fuel, rfl⟩ : ∃ w, fuel = w + 1 := ⟨fuel - 1, by omega⟩
    have h0 := hdec 0 (Nat.succ_pos m)
    rw [Nat.add_zero] at h0
    unfold dline at h0
    obtain ⟨cs, hcs, hstrip⟩ := Option.map_eq_some'.1 h0
    have hstep : logcatLoop elapsed none stream (some ps) patEnd s (fuel + 1) i false acc =
        logcatLoop elapsed none stream (some ps) patEnd s fuel (i + 1) false acc := by
      simp [logcatLoop, timeoutHit, hcs, hstrip, hnost 0 (Nat.succ_pos m),
        hnoend 0 (Nat.succ_pos m)]
    rw [hstep]
    have ihh := ih (fun k => f (k + 1)) (i + 1) acc fuel
      (fun k hk => by
        have hk1 := hdec (k + 1) (by omega)
        rw [show i + (k + 1) = i + 1 + k from by omega] at hk1
        exact hk1)
      (fun k hk => hnost (k + 1) (by omega))
      (fun k hk => hnoend (k + 1) (by omega))
      (by omega)
    rw [ihh]
    congr 1 <;> omega

/-- When the start pattern matches the current line, the iteration
behaves exactly as if accumulation had already started. -/
theorem logcatLoop_start_fire (elapsed : Nat → Nat) (stream : List ByteLine)
    (ps patEnd : List Pat) (s : AdbState) (fuel i : Nat) (acc : List Line)
    (cs : List Char)
    (hcs : utf8Decode (readAt stream i) = some cs)
    (hst : patMatches ps (pyStrip cs) = true) :
    logcatLoop elapsed none stream (some ps) patEnd s (fuel + 1) i false acc =
      logcatLoop elapsed none stream (some ps) patEnd s (fuel + 1) i true acc := by
  cases he : patMatches patEnd (pyStrip cs) <;>
    cases hb : pyBlank (pyStrip cs) <;>
    simp [logcatLoop, timeoutHit, hcs, hst, he, hb]

/-- With a timeout configured, if no stop pattern matches before the
first iteration at which the observed elapsed time exceeds the timeout,
the loop exits through `stop_logcat` with a `TimeoutError`. -/
theorem logcatLoop_timeout (elapsed : Nat → Nat) (stream : List ByteLine)
    (patEnd : List Pat) (s : AdbState) (t : Nat) :
    ∀ (n : Nat) (f : Nat → Line) (i : Nat) (acc : List Line) (fuel : Nat),
      (∀ k, k < n → elapsed (i + k) ≤ t) →
      (∀ k, k < n → dline stream (i + k) = some (f k)) →
      (∀ k, k < n → patMatches patEnd (f k) = false) →
      elapsed (i + n) > t →
      n + 1 ≤ fuel →
      logcatLoop elapsed (some t) stream none patEnd s fuel i true acc =
        (.timeoutError, stop_logcat s) := by
  intro n
  induction n with
  | zero =>
    intro f i acc fuel _ _ _ hel hfuel
    obtain ⟨fuel, rfl⟩ : ∃ w, fuel = w + 1 := ⟨fuel - 1, by omega⟩
    rw [Nat.add_zero] at hel
    simp [logcatLoop, timeoutHit, hel]
  | succ n ih =>
    intro f i acc fuel hel hdec hno helN hfuel
    obtain ⟨fuel, rfl⟩ : ∃ w, fuel = w + 1 := ⟨fuel - 1, by omega⟩
    have h0 := hdec 0 (Nat.succ_pos n)
    rw [Nat.add_zero] at h0
    unfold dline at h0
    obtain ⟨cs, hcs, hstrip⟩ := Option.map_eq_some'.1 h0
    have hel0 : ¬ (elapsed i > t) := by
      have := hel 0 (Nat.succ_pos n)
      rw [Nat.add_zero] at this
      omega
    have hstep : logcatLoop elapsed (some t) stream none patEnd s (fuel + 1) i true acc =
        logcatLoop elapsed (some t) stream none patEnd s fuel (i + 1) true
          (if pyBlank (f 0) then acc else acc ++ [f 0]) := by
      cases hb : pyBlank (f 0) <;>
        simp [logcatLoop, timeoutHit, hel0, hcs, hstrip, hno 0 (Nat.succ_pos n), hb]
    rw [hstep]
    exact ih (fun k => f (k + 1)) (i + 1) _ fuel
      (fun k hk => by
        have hk1 := hel (k + 1) (by omega)
        rw [show i + (k + 1) = i + 1 + k from by omega] at hk1
        exact hk1)
      (fun k hk => by
        have hk1 := hdec (k + 1) (by omega)
        rw [show i + (k + 1) = i + 1 + k from by omega] at hk1
        exact hk1)
      (fun k hk => hno (k + 1) (by omega))
      (by rw [show i + 1 + n = i + (n + 1) from by omega]; exact helN)
      (by omega)

/-- On an exhausted stream (readline keeps returning `b''`) with no
timeout and no stop pattern matching the empty line, the loop never
terminates: it is still running after any number of iterations. -/
theorem logcatLoop_empty_stream (elapsed : Nat → Nat) (patEnd : List Pat)
    (s : AdbState) (hne : patMatches patEnd [] = false) :
    ∀ (fuel i : Nat),
      logcatLoop elapsed none ([] : List ByteLine) none patEnd s fuel i true [] =
        (.running [] true, s) := by
  intro fuel
  induction fuel with
  | zero =>
    intro i
    simp [logcatLoop]
  | succ fuel ih =>
    intro i
    have hdec : utf8Decode (readAt ([] : List ByteLine) i) = some [] := rfl
    have hstep : logcatLoop elapsed none ([] : List ByteLine) none patEnd s (fuel + 1) i true [] =
        logcatLoop elapsed none ([] : List ByteLine) none patEnd s fuel (i + 1) true [] := by
      simp [logcatLoop, timeoutHit, hdec, pyStrip, pyBlank, hne]
    rw [hstep]
    exact ih (i + 1)

/-- Every line in a successfully returned accumulation is non-blank,
provided every line already in the accumulator is. -/
theorem logcatLoop_ok_all_nonblank (elapsed : Nat → Nat) (timeout : Option Nat)
    (stream : List ByteLine) (patStart : Option (List Pat)) (patEnd : List Pat)
    (s : AdbState) :
    ∀ (fuel i : Nat) (canStart : Bool) (acc res : List Line),
      (∀ l, l ∈ acc → l.all isPySpace = false) →
      (logcatLoop elapsed timeout stream patStart patEnd s fuel i canStart acc).1 = .ok res →
      ∀ l, l ∈ res → l.all isPySpace = false := by
  intro fuel
  induction fuel with
  | zero =>
    intro i canStart acc res hacc h
    simp [logcatLoop] at h
  | succ fuel ih =>
    intro i canStart acc res hacc h
    simp only [logcatLoop] at h
    split at h
    · simp at h
    · split at h
      · simp at h
      · rename_i cs hcs
        have hacc' : ∀ l,
            l ∈ (if pyBlank (pyStrip cs) then acc else acc ++ [pyStrip cs]) →
            l.all isPySpace = false := by
          intro l hl
          by_cases hb : pyBlank (pyStrip cs) = true
          · rw [if_pos hb] at hl
            exact hacc l hl
          · rw [if_neg hb] at hl
            rcases List.mem_append.1 hl with hl1 | hl2
            · exact hacc l hl1
            · rw [List.mem_singleton.1 hl2]
              exact pyBlank_false_not_space cs (Bool.eq_false_iff.2 hb)
        split at h
        · split at h
          · have h2 : Outcome.ok
                (if pyBlank (pyStrip cs) = true then acc else acc ++ [pyStrip cs]) =
                Outcome.ok res := h
            injection h2 with h3
            subst h3
            exact hacc'
          · exact ih (i + 1) true _ res hacc' h
        · split at h
          · simp at h
          · split at h
            · split at h
              · have h2 : Outcome.ok
                    (if pyBlank (pyStrip cs) = true then acc else acc ++ [pyStrip cs]) =
                    Outcome.ok res := h
                injection h2 with h3
                subst h3
                exact hacc'
              · exact ih (i + 1) true _ res hacc' h
            · split at h
              · have h2 : Outcome.ok acc = Outcome.ok res := h
                injection h2 with h3
                subst h3
                exact hacc
              · exact ih (i + 1) false acc res hacc h

/-- `patMatches` depends only on membership and emptiness of the
pattern list. -/
theorem patMatches_congr (l₁ l₂ : List Pat) (h0 : l₁ = [] ↔ l₂ = [])
    (h : ∀ p, p ∈ l₁ ↔ p ∈ l₂) (x : List Char) :
    patMatches l₁ x = patMatches l₂ x := by
  cases l₁ with
  | nil =>
    cases l₂ with
    | nil => rfl
    | cons b t₂ => simp at h0
  | cons a t₁ =>
    cases l₂ with
    | nil => simp at h0
    | cons b t₂ =>
      simp only [patMatches]
      rw [Bool.eq_iff_iff]
      simp only [List.any_eq_true]
      constructor
      · rintro ⟨p, hp, hc⟩
        exact ⟨p, (h p).1 hp, hc⟩
      · rintro ⟨p, hp, hc⟩
        exact ⟨p, (h p).2 hp, hc⟩

/-- The loop is unchanged when the stop-pattern list is replaced by one
that matches the same lines. -/
theorem logcatLoop_patEnd_congr (elapsed : Nat → Nat) (timeout : Option Nat)
    (stream : List ByteLine) (patStart : Option (List Pat)) (pe₁ pe₂ : List Pat)
    (s : AdbState) (h : ∀ x, patMatches pe₁ x = patMatches pe₂ x) :
    ∀ (fuel i : Nat) (canStart : Bool) (acc : List Line),
      logcatLoop elapsed timeout stream patStart pe₁ s fuel i canStart acc =
        logcatLoop elapsed timeout stream patStart pe₂ s fuel i canStart acc := by
  intro fuel
  induction fuel with
  | zero =>
    intro i canStart acc
    rfl
  | succ fuel ih =>
    intro i canStart acc
    simp only [logcatLoop, h, ih]

/-- A decoded, stripped line that is non-empty is not blank. -/
theorem dline_pyBlank_false (stream : List ByteLine) (j : Nat) (l : Line)
    (h : dline stream j = some l) (hne : l ≠ []) : pyBlank l = false := by
  unfold dline at h
  obtain ⟨cs, hcs, hstrip⟩ := Option.map_eq_some'.1 h
  rw [← hstrip] at hne ⊢
  exact pyBlank_pyStrip cs hne

/-- When the final mapped element passes the filter, it is the last
element of the filtered list. -/
theorem filter_range_getLast (n : Nat) (f : Nat → Line) (q : Line → Bool)
    (hq : q (f n) = true) :
    (((List.range (n + 1)).map f).filter q).getLast? = some (f n) := by
  rw [List.range_succ, List.map_append, List.filter_append]
  simp [List.filter, hq, List.getLast?_concat]

/-- When the final mapped element passes the filter, it is a member of
the filtered list. -/
theorem mem_filter_range (n : Nat) (f : Nat → Line) (q : Line → Bool)
    (hq : q (f n) = true) :
    f n ∈ ((List.range (n + 1)).map f).filter q := by
  exact List.mem_filter.2
    ⟨List.mem_map_of_mem f (List.mem_range.2 (Nat.lt_succ_self n)), hq⟩

/-- When the first mapped element passes the filter, it is the head of
the filtered list. -/
theorem filter_range_head (n : Nat) (f : Nat → Line) (q : Line → Bool)
    (hq : q (f 0) = true) :
    (((List.range (n + 1)).map f).filter q).head? = some (f 0) := by
  rw [List.range_succ_eq_map]
  simp [List.filter_cons, hq]

/-- Claim C1, amended: with accumulation already started (no start
patterns), no timeout, and the first stop-pattern match of the stream at
line `n` (lines given decoded and stripped by `f`), the call returns the
non-blank lines up to and including line `n`; provided the matching line
is non-blank, the result ends with it and contains it, and nothing read
after it.  (The unamended claim fails when the matching line is blank:
see the counterexample.) -/
theorem C1_stop_match (s : AdbState) (el : List Pat) (stream : List ByteLine)
    (elapsed : Nat → Nat) (fuel n : Nat) (f : Nat → Line)
    (hlive : s.logcatHandle = true)
    (hex : s.exitLines = none)
    (hdec : ∀ k, k ≤ n → dline stream k = some (f k))
    (hno : ∀ k, k < n → patMatches el (f k) = false)
    (hyes : patMatches el (f n) = true)
    (hnb : f n ≠ [])
    (hfuel : n + 1 ≤ fuel) :
    (read_logcat_while_lines s el none none stream elapsed fuel).outcome =
        .ok (((List.range (n + 1)).map f).filter fun l => !pyBlank l) ∧
      ((((List.range (n + 1)).map f).filter fun l => !pyBlank l).getLast? = some (f n)) ∧
      f n ∈ (((List.range (n + 1)).map f).filter fun l => !pyBlank l) := by
  have hq : (!pyBlank (f n)) = true := by
    rw [dline_pyBlank_false stream n (f n) (hdec n (Nat.le_refl n)) hnb]
    rfl
  have hrun := logcatLoop_ok elapsed stream none el s n f 0 [] fuel
    (fun k hk => by rw [Nat.zero_add]; exact hdec k hk) hno hyes hfuel
  refine ⟨?_, filter_range_getLast n f _ hq, mem_filter_range n f _ hq⟩
  simp [read_logcat_while_lines, hlive, hex, hrun]

/-- Counterexample to claim C1 as stated: the stop-pattern list `['']`
contains a pattern matching the (stripped) line `' '`, yet the returned
result is empty, so it neither ends with nor includes the matching
line. -/
theorem C1_blank_stop_counterexample :
    patMatches [([] : List Char)] (pyStrip " ".data) = true ∧
      (read_logcat_while_lines liveState [([] : List Char)] none none
          [asciiBytes " "] (fun _ => 0) 5).outcome = .ok [] ∧
      ([] : List Line).getLast? = none := by
  exact ⟨by decide, by decide, rfl⟩

/-- Witness for C1 on the spec's shape of stream: `["a","b","STOP","c"]`
with stop pattern `"STOP"` accumulates exactly `["a","b","STOP"]`. -/
theorem C1_stop_match_witness :
    (read_logcat_while_lines liveState ["STOP".data] none none
        [asciiBytes "a", asciiBytes "b", asciiBytes "STOP", asciiBytes "c"]
        (fun _ => 0) 9).outcome =
      .ok ["a".data, "b".data, "STOP".data] := by
  have h := C1_stop_match liveState ["STOP".data]
    [asciiBytes "a", asciiBytes "b", asciiBytes "STOP", asciiBytes "c"]
    (fun _ => 0) 9 2
    (fun k => ["a".data, "b".data, "STOP".data].getD k [])
    rfl rfl
    (by intro k hk; interval_cases k <;> rfl)
    (by intro k hk; interval_cases k <;> rfl)
    (by decide) (by decide) (by omega)
  rw [h.1]
  decide

/-- Claim C4, code-bug evidence: when the logcat stream has ended (every
`readline` returns `b''`) and no stop pattern matches the empty line,
the call neither returns nor raises a distinct stream-closed error — it
is still running after any number of iterations. -/
theorem C4_stream_end_loops (elapsed : Nat → Nat) (fuel : Nat) :
    (read_logcat_while_lines liveState ["CRASH".data] none none [] elapsed fuel).outcome =
      .running [] true := by
  have h := logcatLoop_empty_stream elapsed ["CRASH".data] liveState (by decide) fuel 0
  show (logcatLoop elapsed none [] none ["CRASH".data] liveState fuel 0 true []).1 =
    Outcome.running [] true
  rw [h]

/-- Claim C5, code-bug evidence: the byte `0x80` alone is not valid
UTF-8; the source decodes strictly (no `errors='replace'`), so the call
aborts with a decode error instead of replacing the bad byte and
continuing. -/
theorem C5_strict_decode_fails :
    utf8Decode [0x80] = none ∧
      (read_logcat_while_lines liveState ["CRASH".data] none none
          [[0x80], asciiBytes "CRASH"] (fun _ => 0) 9).outcome = .decodeError := by
  exact ⟨rfl, by decide⟩

/-- Claim C10: an empty `end_lines` list with no configured exit lines
is not rejected — `re.compile('|'.join(set([])))` is the empty pattern,
which matches every line, so the call succeeds at the very first line
and returns at most that one line. -/
theorem C10_empty_stop_list (s : AdbState) (stream : List ByteLine)
    (elapsed : Nat → Nat) (fuel : Nat) (l0 : Line)
    (hlive : s.logcatHandle = true) (hex : s.exitLines = none)
    (hdec : dline stream 0 = some l0) (hfuel : 1 ≤ fuel) :
    (read_logcat_while_lines s [] none none stream elapsed fuel).outcome =
        .ok (if pyBlank l0 then [] else [l0]) ∧
      (if pyBlank l0 then ([] : List Line) else [l0]).length ≤ 1 ∧
      (∀ x : List Char, patMatches [] x = true) := by
  have hrun := logcatLoop_ok elapsed stream none [] s 0 (fun _ => l0) 0 [] fuel
    (fun k hk => by
      have hk0 : k = 0 := by omega
      subst hk0
      rw [Nat.zero_add]
      exact hdec)
    (fun k hk => absurd hk (by omega))
    rfl hfuel
  refine ⟨?_, ?_, fun x => rfl⟩
  · cases hb : pyBlank l0 <;>
      simp [read_logcat_while_lines, hlive, hex, hrun, List.range_succ,
        List.range_zero, List.filter, hb]
  · cases hb : pyBlank l0 <;> simp

/-- Witness for C10: with `end_lines = []` the first line `"hello"` is
returned alone. -/
theorem C10_empty_stop_list_witness :
    (read_logcat_while_lines liveState [] none none [asciiBytes "hello"]
        (fun _ => 0) 3).outcome = .ok ["hello".data] := by
  have h := C10_empty_stop_list liveState [asciiBytes "hello"] (fun _ => 0) 3
    "hello".data rfl rfl rfl (by omega)
  rw [h.1]
  decide

/-- Claim C9: with exit lines configured, `end_lines += self.__exit_lines`
mutates the caller's list before the stop pattern is compiled, so after
the call the caller's list has grown by the exit lines, and a repeated
call with the already-grown list grows it again. -/
theorem C9_end_lines_mutated (s1 s2 : AdbState) (el ex : List Pat)
    (sl1 sl2 : Option (List Pat)) (t1 t2 : Option Nat)
    (stream1 stream2 : List ByteLine) (e1 e2 : Nat → Nat) (fuel1 fuel2 : Nat)
    (h1 : s1.logcatHandle = true) (hx1 : s1.exitLines = some ex)
    (h2 : s2.logcatHandle = true) (hx2 : s2.exitLines = some ex)
    (hne : ex ≠ []) :
    (read_logcat_while_lines s1 el sl1 t1 stream1 e1 fuel1).endLinesAfter = el ++ ex ∧
      (read_logcat_while_lines s2 (el ++ ex) sl2 t2 stream2 e2 fuel2).endLinesAfter =
        (el ++ ex) ++ ex ∧
      el.length < (el ++ ex).length ∧
      (el ++ ex).length < ((el ++ ex) ++ ex).length := by
  have hlen : 0 < ex.length := List.length_pos.2 hne
  refine ⟨?_, ?_, ?_, ?_⟩
  · simp [read_logcat_while_lines, h1, hx1]
  · simp [read_logcat_while_lines, h2, hx2]
  · simp only [List.length_append]
    omega
  · simp only [List.length_append]
    omega

/-- Witness for C9 at a concrete configured state. -/
theorem C9_end_lines_mutated_witness :
    (read_logcat_while_lines (set_logcat_exit_lines liveState ["FATAL".data])
        ["CRASH".data] none none [asciiBytes "FATAL"] (fun _ => 0) 3).endLinesAfter =
      ["CRASH".data, "FATAL".data] := by
  have h := C9_end_lines_mutated (set_logcat_exit_lines liveState ["FATAL".data])
    (set_logcat_exit_lines liveState ["FATAL".data]) ["CRASH".data] ["FATAL".data]
    none none none none [asciiBytes "FATAL"] [] (fun _ => 0) (fun _ => 0) 3 0
    rfl rfl rfl rfl (by decide)
  exact h.1

/-- Claim C2, amended: with a non-empty start-pattern list whose first
match is at line `m`, no stop match before `m`, and the first stop match
at line `n ≥ m`, the call returns exactly the non-blank stripped lines
from `m` through `n` — every line read before `m` is excluded by
position — and, provided line `m` is non-blank, that first matching
line is included (it heads the result).  (As literally stated the claim
fails when the first start-matching line is blank, and an empty
start-pattern list raises `TypeError`: see the counterexample.) -/
theorem C2_start_patterns (s : AdbState) (sp el : List Pat) (stream : List ByteLine)
    (elapsed : Nat → Nat) (fuel m n : Nat) (f : Nat → Line)
    (hlive : s.logcatHandle = true)
    (hex : s.exitLines = none)
    (hsp : sp ≠ [])
    (hdec : ∀ k, k ≤ n → dline stream k = some (f k))
    (hmn : m ≤ n)
    (hnost : ∀ k, k < m → patMatches sp (f k) = false)
    (hnoend1 : ∀ k, k < m → patMatches el (f k) = false)
    (hst : patMatches sp (f m) = true)
    (hnoend2 : ∀ k, m ≤ k → k < n → patMatches el (f k) = false)
    (hyes : patMatches el (f n) = true)
    (hfuel : n + 1 ≤ fuel) :
    (read_logcat_while_lines s el (some sp) none stream elapsed fuel).outcome =
        .ok (((List.range (n + 1 - m)).map fun j => f (m + j)).filter fun l => !pyBlank l) ∧
      (f m ≠ [] →
        ((((List.range (n + 1 - m)).map fun j => f (m + j)).filter fun l => !pyBlank l).head? =
          some (f m))) := by
  obtain ⟨p, ps, rfl⟩ := List.exists_cons_of_ne_nil hsp
  have hm0 := hdec m hmn
  have hm1 := hm0
  unfold dline at hm1
  obtain ⟨cs, hcs, hstrip⟩ := Option.map_eq_some'.1 hm1
  obtain ⟨w, hw⟩ : ∃ w, fuel - m = w + 1 := ⟨fuel - m - 1, by omega⟩
  have hskip := logcatLoop_skip elapsed stream (p :: ps) el s m f 0 [] fuel
    (fun k hk => by rw [Nat.zero_add]; exact hdec k (by omega))
    hnost hnoend1 (by omega)
  rw [Nat.zero_add, hw] at hskip
  have hfire := logcatLoop_start_fire elapsed stream (p :: ps) el s w m [] cs hcs
    (by rw [hstrip]; exact hst)
  have hrun := logcatLoop_ok elapsed stream (some (p :: ps)) el s (n - m)
    (fun k => f (m + k)) m [] (w + 1)
    (fun k hk => hdec (m + k) (by omega))
    (fun k hk => hnoend2 (m + k) (by omega) (by omega))
    (by
      show patMatches el (f (m + (n - m))) = true
      rw [show m + (n - m) = n from by omega]
      exact hyes)
    (by omega)
  constructor
  · rw [show n + 1 - m = n - m + 1 from by omega]
    simp only [read_logcat_while_lines, hlive, hex]
    simp only [Bool.true_eq_false, if_false, Option.isNone_some]
    rw [hskip, hfire, hrun]
    simp
  · intro hnb
    have hq : (!pyBlank (f m)) = true := by
      rw [dline_pyBlank_false stream m (f m) hm0 hnb]
      rfl
    have hh := filter_range_head (n - m) (fun j => f (m + j)) (fun l => !pyBlank l) hq
    rw [show n + 1 - m = n - m + 1 from by omega]
    exact hh

/-- Counterexample to claim C2 as stated: with start list `['']` the
first start-matching line is the blank line `' '`, which is not included
in the result; and with the (non-`None`) empty start list the call
raises `TypeError` instead of accumulating at all. -/
theorem C2_counterexample :
    (read_logcat_while_lines liveState ["CRASH".data] (some [([] : List Char)]) none
        [asciiBytes " ", asciiBytes "CRASH"] (fun _ => 0) 9).outcome =
      .ok ["CRASH".data] ∧
      patMatches [([] : List Char)] (pyStrip " ".data) = true ∧
      ¬ pyStrip " ".data ∈ ["CRASH".data] ∧
      (read_logcat_while_lines liveState ["CRASH".data] (some []) none
          [asciiBytes "a"] (fun _ => 0) 9).outcome = .typeError := by
  exact ⟨by decide, by decide, by decide, by decide⟩

/-- Witness for C2: the end-to-end example of the spec — stream
`["START","line1","","line2","CRASH"]`, start `["START"]`, stop
`["CRASH"]` — yields `["START","line1","line2","CRASH"]`. -/
theorem C2_start_patterns_witness :
    (read_logcat_while_lines liveState ["CRASH".data] (some ["START".data]) none
        [asciiBytes "START", asciiBytes "line1", asciiBytes "", asciiBytes "line2",
          asciiBytes "CRASH"] (fun _ => 0) 9).outcome =
      .ok ["START".data, "line1".data, "line2".data, "CRASH".data] := by
  have h := C2_start_patterns liveState ["START".data] ["CRASH".data]
    [asciiBytes "START", asciiBytes "line1", asciiBytes "", asciiBytes "line2",
      asciiBytes "CRASH"]
    (fun _ => 0) 9 0 4
    (fun k => ["START".data, "line1".data, [], "line2".data, "CRASH".data].getD k [])
    rfl rfl (by decide)
    (by intro k hk; interval_cases k <;> rfl)
    (by omega)
    (by intro k hk; omega)
    (by intro k hk; omega)
    (by decide)
    (by intro k hk1 hk2; interval_cases k <;> rfl)
    (by decide)
    (by omega)
  rw [h.1]
  decide

/-- Claim C3: with a timeout configured, if the observed elapsed time
exceeds the timeout at iteration `n` and no stop pattern matched in the
`n` lines read before, the call fails with `TimeoutError` — an outcome
distinct from every successful `ok` return — and the logcat process has
been terminated and its handle released (by `stop_logcat`, run before
the raise). -/
theorem C3_timeout (s : AdbState) (el : List Pat) (t : Nat) (stream : List ByteLine)
    (elapsed : Nat → Nat) (fuel n : Nat) (f : Nat → Line)
    (hlive : s.logcatHandle = true) (hex : s.exitLines = none)
    (hel : ∀ k, k < n → elapsed k ≤ t)
    (hdec : ∀ k, k < n → dline stream k = some (f k))
    (hno : ∀ k, k < n → patMatches el (f k) = false)
    (helN : elapsed n > t)
    (hfuel : n + 1 ≤ fuel) :
    (read_logcat_while_lines s el none (some t) stream elapsed fuel).outcome = .timeoutError ∧
      (read_logcat_while_lines s el none (some t) stream elapsed fuel).state.procTerminated
        = true ∧
      (read_logcat_while_lines s el none (some t) stream elapsed fuel).state.logcatHandle
        = false ∧
      (∀ res : List Line, Outcome.timeoutError ≠ Outcome.ok res) := by
  have hrun := logcatLoop_timeout elapsed stream el s t n f 0 [] fuel
    (fun k hk => by rw [Nat.zero_add]; exact hel k hk)
    (fun k hk => by rw [Nat.zero_add]; exact hdec k hk)
    hno
    (by rw [Nat.zero_add]; exact helN)
    hfuel
  refine ⟨?_, ?_, ?_, fun res h => by cases h⟩
  · simp [read_logcat_while_lines, hlive, hex, hrun]
  · simp [read_logcat_while_lines, hlive, hex, hrun, stop_logcat]
  · simp [read_logcat_while_lines, hlive, hex, hrun, stop_logcat]

/-- Witness for C3: with `timeout = 1` and elapsed time `i` at iteration
`i`, a stream of non-matching lines times out with the process
terminated and the handle released. -/
theorem C3_timeout_witness :
    (read_logcat_while_lines liveState ["CRASH".data] none (some 1)
        [asciiBytes "a", asciiBytes "b"] (fun i => i) 9).outcome = .timeoutError ∧
      (read_logcat_while_lines liveState ["CRASH".data] none (some 1)
          [asciiBytes "a", asciiBytes "b"] (fun i => i) 9).state.procTerminated = true ∧
      (read_logcat_while_lines liveState ["CRASH".data] none (some 1)
          [asciiBytes "a", asciiBytes "b"] (fun i => i) 9).state.logcatHandle = false := by
  have h := C3_timeout liveState ["CRASH".data] 1 [asciiBytes "a", asciiBytes "b"]
    (fun i => i) 9 2
    (fun k => ["a".data, "b".data].getD k [])
    rfl rfl
    (by intro k hk; show k ≤ 1; omega)
    (by intro k hk; interval_cases k <;> rfl)
    (by intro k hk; interval_cases k <;> rfl)
    (by show 1 < 2; omega)
    (by omega)
  exact ⟨h.1, h.2.1, h.2.2.1⟩

/-- Claim C6: every line of a successfully returned accumulation is
non-empty and not whitespace-only, whatever the stream, the start/stop
configuration, and the position — lines are stripped and blank ones are
never appended, including at the start-match and stop positions. -/
theorem C6_no_blank_lines (s : AdbState) (el : List Pat) (sl : Option (List Pat))
    (t : Option Nat) (stream : List ByteLine) (elapsed : Nat → Nat) (fuel : Nat)
    (res : List Line)
    (h : (read_logcat_while_lines s el sl t stream elapsed fuel).outcome = .ok res) :
    ∀ l, l ∈ res → (l.all isPySpace = false ∧ l ≠ []) := by
  by_cases hlive : s.logcatHandle = false
  · simp [read_logcat_while_lines, hlive] at h
  · simp only [read_logcat_while_lines, if_neg hlive] at h
    have hmain := logcatLoop_ok_all_nonblank elapsed t stream _ _ s fuel 0 _ [] res
      (fun l hl => absurd hl (List.not_mem_nil l)) h
    intro l hl
    refine ⟨hmain l hl, ?_⟩
    intro hnil
    have hb := hmain l hl
    rw [hnil] at hb
    simp at hb

/-- Witness for C6: in a run whose result is `["hi","CRASH"]` (from the
stream `["  hi  "," ","CRASH"]`), the member `"hi"` is non-blank. -/
theorem C6_no_blank_lines_witness :
    ("hi".data.all isPySpace = false) ∧ "hi".data ≠ [] := by
  have h := C6_no_blank_lines liveState ["CRASH".data] none none
    [asciiBytes "  hi  ", asciiBytes " ", asciiBytes "CRASH"] (fun _ => 0) 9
    ["hi".data, "CRASH".data] (by decide) "hi".data (by decide)
  exact h

/-- Claim C7: removing duplicate stop patterns changes neither the
outcome nor the final state of the call — the source deduplicates with
`set(end_lines)` before compiling, and for literal alternation matching
is membership-only, so the union with the configured exit lines is
idempotent. -/
theorem C7_duplicate_stop_patterns (s : AdbState) (el : List Pat)
    (sl : Option (List Pat)) (t : Option Nat) (stream : List ByteLine)
    (elapsed : Nat → Nat) (fuel : Nat) :
    (read_logcat_while_lines s el.dedup sl t stream elapsed fuel).outcome =
        (read_logcat_while_lines s el sl t stream elapsed fuel).outcome ∧
      (read_logcat_while_lines s el.dedup sl t stream elapsed fuel).state =
        (read_logcat_while_lines s el sl t stream elapsed fuel).state := by
  by_cases hlive : s.logcatHandle = false
  · simp [read_logcat_while_lines, hlive]
  · cases hex : s.exitLines with
    | none =>
      have hcong : ∀ x, patMatches el.dedup x = patMatches el x := fun x =>
        patMatches_congr _ _ (by simp [List.dedup_eq_nil]) (fun p => List.mem_dedup) x
      simp only [read_logcat_while_lines, if_neg hlive, hex]
      rw [logcatLoop_patEnd_congr elapsed t stream _ el.dedup el s hcong fuel 0 _ []]
      exact ⟨rfl, rfl⟩
    | some ex =>
      have hcong : ∀ x, patMatches (el.dedup ++ ex) x = patMatches (el ++ ex) x := fun x =>
        patMatches_congr _ _
          (by simp [List.append_eq_nil, List.dedup_eq_nil])
          (fun p => by simp [List.mem_append, List.mem_dedup]) x
      simp only [read_logcat_while_lines, if_neg hlive, hex]
      rw [logcatLoop_patEnd_congr elapsed t stream _ (el.dedup ++ ex) (el ++ ex) s hcong
        fuel 0 _ []]
      exact ⟨rfl, rfl⟩

/-- `set_adb` never changes the stored SDK root. -/
theorem set_adb_sdk (fs : FS) (st : SdkState) (p : Option String) (st' : SdkState)
    (h : set_adb fs st p = .ok st') : st'.sdk = st.sdk := by
  simp only [set_adb] at h
  repeat' split at h
  all_goals cases h
  all_goals rfl

/-- `set_aapt` never changes the stored SDK root. -/
theorem set_aapt_sdk (fs : FS) (st : SdkState) (p : Option String) (st' : SdkState)
    (h : set_aapt fs st p = .ok st') : st'.sdk = st.sdk := by
  simp only [set_aapt] at h
  repeat' split at h
  all_goals cases h
  all_goals rfl

/-- `set_zipalign` never changes the stored SDK root. -/
theorem set_zipalign_sdk (fs : FS) (st : SdkState) (p : Option String) (st' : SdkState)
    (h : set_zipalign fs st p = .ok st') : st'.sdk = st.sdk := by
  simp only [set_zipalign] at h
  repeat' split at h
  all_goals cases h
  all_goals rfl

/-- `set_emulator` never changes the stored SDK root. -/
theorem set_emulator_sdk (fs : FS) (st : SdkState) (p : Option String) (st' : SdkState)
    (h : set_emulator fs st p = .ok st') : st'.sdk = st.sdk := by
  simp only [set_emulator] at h
  repeat' split at h
  all_goals cases h
  all_goals rfl

/-- The auto-set dispatch never changes the stored SDK root. -/
theorem sdk_auto_set_sdk (fs : FS) :
    ∀ (l : List String) (st st' : SdkState),
      sdk_auto_set fs st l = .ok st' → st'.sdk = st.sdk := by
  intro l
  induction l with
  | nil =>
    intro st st' h
    unfold sdk_auto_set at h
    cases h
    rfl
  | cons n rest ih =>
    intro st st' h
    simp only [sdk_auto_set] at h
    cases hstep : (if n = "adb" then set_adb fs st none
        else if n = "aapt" then set_aapt fs st none
        else if n = "zipalign" then set_zipalign fs st none
        else if n = "emulator" then set_emulator fs st none
        else Except.error PathErr.attributeError) with
    | error e =>
      rw [hstep] at h
      cases h
    | ok st1 =>
      rw [hstep] at h
      rw [ih st1 st' h]
      by_cases h1 : n = "adb"
      · rw [if_pos h1] at hstep
        exact set_adb_sdk fs st none st1 hstep
      · rw [if_neg h1] at hstep
        by_cases h2 : n = "aapt"
        · rw [if_pos h2] at hstep
          exact set_aapt_sdk fs st none st1 hstep
        · rw [if_neg h2] at hstep
          by_cases h3 : n = "zipalign"
          · rw [if_pos h3] at hstep
            exact set_zipalign_sdk fs st none st1 hstep
          · rw [if_neg h3] at hstep
            by_cases h4 : n = "emulator"
            · rw [if_pos h4] at hstep
              exact set_emulator_sdk fs st none st1 hstep
            · rw [if_neg h4] at hstep
              cases hstep

/-- `_path_checker` only ever returns `True` when it does not raise. -/
theorem path_checker_ok (fs : FS) (p t : String) (b : Bool)
    (h : path_checker fs p t = .ok b) : b = true := by
  unfold path_checker at h
  repeat' split at h
  all_goals cases h
  all_goals rfl

/-- Claim C8: the SDK resolver fails by raising when the installation
root or the tool binary does not exist — `set_sdk` raises `OSError` for
a missing root and `IsADirectoryError` for a non-directory root;
`set_adb` raises for a missing file at the explicit or the derived
`<sdk>/platform-tools/adb` path — and on success the corresponding
getter returns the resolved path. -/
theorem C8_sdk_resolver (fs : FS) (st : SdkState) (path : String)
    (autoSet : List String) :
    (fs.lookup (fs.expandvars path) = none →
        set_sdk fs st path autoSet = .error .osError) ∧
      (fs.lookup (fs.expandvars path) = some .file →
        set_sdk fs st path autoSet = .error .isADirectoryError) ∧
      (∀ st', set_sdk fs st path autoSet = .ok st' → get_sdk st' = some path) ∧
      (∀ p, p ≠ "" → fs.lookup (fs.expandvars p) = none →
        set_adb fs st (some p) = .error .osError) ∧
      (∀ p, p ≠ "" → fs.lookup (fs.expandvars p) = some .dir →
        set_adb fs st (some p) = .error .fileNotFoundError) ∧
      (∀ p st', p ≠ "" → set_adb fs st (some p) = .ok st' → get_adb st' = some p) ∧
      (∀ r, st.sdk = some r →
        fs.lookup (fs.expandvars (pathJoin (pathJoin r "platform-tools") (utilName fs "adb")))
          = none →
        set_adb fs st none = .error .osError) ∧
      (∀ r st', st.sdk = some r → set_adb fs st none = .ok st' →
        get_adb st' = some (pathJoin (pathJoin r "platform-tools") (utilName fs "adb"))) := by
  refine ⟨?_, ?_, ?_, ?_, ?_, ?_, ?_, ?_⟩
  · intro h
    simp [set_sdk, path_checker, h]
  · intro h
    simp [set_sdk, path_checker, h]
  · intro st' h
    simp only [set_sdk] at h
    cases hpc : path_checker fs path "dir" with
    | error e =>
      simp only [hpc] at h
      cases h
    | ok b =>
      have hb := path_checker_ok fs path "dir" b hpc
      subst hb
      simp only [hpc] at h
      by_cases ha : autoSet ≠ []
      · rw [if_pos ha] at h
        have hs := sdk_auto_set_sdk fs autoSet _ st' h
        unfold get_sdk
        rw [hs]
      · rw [if_neg ha] at h
        cases h
        rfl
  · intro p hp h
    simp [set_adb, hp, path_checker, h]
  · intro p hp h
    simp [set_adb, hp, path_checker, h]
  · intro p st' hp h
    simp only [set_adb] at h
    rw [if_pos hp] at h
    cases hpc : path_checker fs p "file" with
    | error e =>
      simp only [hpc] at h
      cases h
    | ok b =>
      simp only [hpc] at h
      cases h
      rfl
  · intro r hr h
    simp [set_adb, hr, path_checker, h]
  · intro r st' hr h
    simp only [set_adb] at h
    simp only [hr] at h
    cases hpc : path_checker fs
        (pathJoin (pathJoin r "platform-tools") (utilName fs "adb")) "file" with
    | error e =>
      simp only [hpc] at h
      cases h
    | ok b =>
      simp only [hpc] at h
      cases h
      rfl

/-- Witness for C8 on the concrete filesystem `fsW`: a missing root
raises `OSError`, a missing adb file raises, and the successful
resolutions are returned by the getters. -/
theorem C8_sdk_resolver_witness :
    set_sdk fsW sdkState0 "/nope" [] = .error .osError ∧
      get_sdk sdkStateS = some "/sdk" ∧
      set_adb fsW sdkStateS (some "/sdk") = .error .fileNotFoundError ∧
      get_adb { sdkStateS with adb := some "/sdk/platform-tools/adb" } =
        some "/sdk/platform-tools/adb" := by
  refine ⟨(C8_sdk_resolver fsW sdkState0 "/nope" []).1 rfl, ?_, ?_, ?_⟩
  · exact (C8_sdk_resolver fsW sdkState0 "/sdk" []).2.2.1 sdkStateS rfl
  · exact (C8_sdk_resolver fsW sdkStateS "/x" []).2.2.2.2.1 "/sdk" (by decide) rfl
  · exact (C8_sdk_resolver fsW sdkStateS "/x" []).2.2.2.2.2.1 "/sdk/platform-tools/adb"
      { sdkStateS with adb := some "/sdk/platform-tools/adb" } (by decide) rfl

end AndroidSdkHelper
